import Mathlib

/-!
Shallow embedding of `jerry-core/ecma/operations/ecma-arraybuffer-object.c`
(the ArrayBuffer object routines of the JerryScript engine) and proofs about
its construction, cloning and introspection operations.

Modelling conventions:
* machine integers are `Nat` with explicit `% 2 ^ 32` where wraparound matters;
* `ecma_number_t` (an IEEE double) is modelled as a rational number together
  with the special values NaN and the two infinities — every double is one of
  those, and the operations used here (truncation to uint32, equality with a
  uint32 value) are exact on that model;
* the heap is a list of extended objects addressed by index; allocation
  appends;
* external collaborators (the numeric-coercion routine `ecma_op_to_number`,
  the allocator `ecma_create_object`, header sizes) are parameters.
-/

namespace ArrayBufferSpec

/-- A byte of the data region (values 0–255 in the C program; modelled as `Nat`,
with the operations here only ever storing values that were read or the
constant 0). -/
abbrev Byte := Nat

/-- UINT32_MAX from `<stdint.h>`. -/
def UINT32_MAX : Nat := 2 ^ 32 - 1

/-- The magic-string enumerant `LIT_MAGIC_STRING_ARRAY_BUFFER_UL` used as the
class tag of ArrayBuffer objects.  Its concrete numeric value is irrelevant;
it only has to differ from every other class tag, in particular from
`LIT_MAGIC_STRING_OBJECT_UL` below. -/
def LIT_MAGIC_STRING_ARRAY_BUFFER_UL : Nat := 93

/-- Modelled from the spec: the generic class name (`LIT_MAGIC_STRING_OBJECT_UL`)
that `ecma_object_get_class_name` (ecma-objects.c, not under src/) reports for
an object that carries no specific class tag.  Distinct from the ArrayBuffer
tag. -/
def LIT_MAGIC_STRING_OBJECT_UL : Nat := 104

/-- `ecma_number_t`: an IEEE-754 double, modelled exactly as either NaN, an
infinity, or a finite value (every finite double is a rational number). -/
inductive EcmaNumber where
  | nan
  | posInf
  | negInf
  | finite (q : ℚ)
deriving DecidableEq

/-- Truncation toward zero of a rational (the real-to-integer step of the
ECMAScript ToUint32 conversion: `sign(x) * floor(abs(x))`). -/
def ratTruncate (q : ℚ) : ℤ := if q < 0 then -(⌊-q⌋) else ⌊q⌋

/-- Modelled from the spec: `ecma_number_to_uint32` (ecma-helpers-conversion.c,
not under src/) — the ECMAScript ToUint32 conversion: NaN and the infinities
map to 0, a finite value is truncated toward zero and reduced modulo `2 ^ 32`. -/
def ecma_number_to_uint32 : EcmaNumber → Nat
  | EcmaNumber.nan => 0
  | EcmaNumber.posInf => 0
  | EcmaNumber.negInf => 0
  | EcmaNumber.finite q => ((ratTruncate q) % ((2 : ℤ) ^ 32)).toNat

/-- The C comparison `num == ((ecma_number_t) length)` of line 59: a uint32
converts to a double exactly (it is below `2 ^ 53`), and NaN or an infinity
compares unequal to every finite value. -/
def ecma_number_eq_nat : EcmaNumber → Nat → Bool
  | EcmaNumber.finite q, n => decide (q = (n : ℚ))
  | _, _ => false

/-- Kinds of error objects produced by `ecma_raise_*` routines. -/
inductive ErrorKind where
  | range
  | type
  | other
deriving DecidableEq

/-- `ecma_value_t`: a tagged ECMA value — a simple value (undefined, null,
booleans), a number, a string, an object reference (a heap index), or a thrown
error value. -/
inductive EcmaValue where
  | undef
  | null
  | boolean (b : Bool)
  | number (n : EcmaNumber)
  | string (sid : Nat)
  | object (id : Nat)
  | thrown (kind : ErrorKind) (msg : String)
deriving DecidableEq

/-- `ecma_raise_range_error`: builds the thrown RangeError value. -/
def ecma_raise_range_error (msg : String) : EcmaValue :=
  EcmaValue.thrown ErrorKind.range msg

/-- `ecma_is_value_object`: true exactly on object references. -/
def ecma_is_value_object : EcmaValue → Bool
  | EcmaValue.object _ => true
  | _ => false

/-- `ecma_get_object_from_value` (defined on object values only; the default
branch is never reached behind an `ecma_is_value_object` guard). -/
def ecma_get_object_from_value : EcmaValue → Nat
  | EcmaValue.object id => id
  | _ => 0

/-- An `ecma_extended_object_t` record together with its trailing data region:
the class tag (`u.class_prop.class_id`, `none` for objects allocated without a
class), the stored length (`u.class_prop.u.length`), the `length` bytes that
follow the header in the same allocation, and the total size that was requested
from the allocator for this record. -/
structure EcmaObject where
  class_id : Option Nat
  length : Nat
  bytes : List Byte
  alloc_size : Nat
deriving DecidableEq

/-- The object heap: a list of records addressed by index; allocation appends
and never moves an existing record (the engine's allocator is non-relocating). -/
structure Heap where
  objs : List EcmaObject
deriving DecidableEq

/-- Dereference an object id. -/
def Heap.get (h : Heap) (id : Nat) : Option EcmaObject :=
  h.objs.get? id

/-- Allocate a fresh record (`ecma_create_object`'s heap effect): the new id
and the extended heap. -/
def Heap.alloc (h : Heap) (o : EcmaObject) : Nat × Heap :=
  (h.objs.length, ⟨h.objs ++ [o]⟩)

/-- Overwrite the data region of an object through a pointer into it.  Pointer
writes reach only the trailing byte region, never the header fields. -/
def Heap.setBytes (h : Heap) (id : Nat) (bs : List Byte) : Heap :=
  match h.get id with
  | some o => ⟨h.objs.set id { o with bytes := bs }⟩
  | none => h

/-- `memset (dst, b, n)` on a region holding `dst`: the first `n` bytes become
`b`, the rest is untouched. -/
def memset (dst : List Byte) (b : Byte) (n : Nat) : List Byte :=
  List.replicate (min n dst.length) b ++ dst.drop n

/-- `memcpy (dst, src, n)`: the first `n` bytes of `src` overwrite the prefix
of `dst`. -/
def memcpy (dst src : List Byte) (n : Nat) : List Byte :=
  src.take n ++ dst.drop n

/-- Modelled from the spec (§4.2): the allocation request of line 97 is sized
`sizeof (ecma_extended_object_t) + length` — alignment is absorbed into the
allocator's header accounting, so the request itself contains no separate
padding bytes. -/
def alignmentPadding : Nat := 0

/-- `ecma_arraybuffer_new_object` (lines 92–108): requests a record of size
`sizeof (ecma_extended_object_t) + length` from `ecma_create_object` (linked to
the ArrayBuffer prototype, type `ECMA_OBJECT_TYPE_CLASS`), sets the class tag
and the stored length, and zero-fills the `length` bytes after the header.
`extSize` stands for `sizeof (ecma_extended_object_t)`; `junkF` models the
uninitialized contents the external allocator hands back (byte `i` of the fresh
region is `junkF i` before the `memset`). -/
def ecma_arraybuffer_new_object (extSize : Nat) (length : Nat)
    (junkF : Nat → Byte) (h : Heap) : Nat × Heap :=
  Heap.alloc h
    { class_id := some LIT_MAGIC_STRING_ARRAY_BUFFER_UL
    , length := length
    , bytes := memset ((List.range length).map junkF) 0 length
    , alloc_size := extSize + length }

/-- The overflow threshold of line 72:
`UINT32_MAX - sizeof (ecma_extended_object_t) - JMEM_ALIGNMENT + 1`,
with `extSize` for the sizeof and `align` for `JMEM_ALIGNMENT`. -/
def MAX_SAFE_LENGTH (extSize align : Nat) : Nat :=
  UINT32_MAX - extSize - align + 1

/-- The error message of lines 61 and 74 (`ECMA_ERR_MSG` keeps the literal
verbatim when error messages are compiled in). -/
def invalidLengthMsg : String := "Invalid ArrayBuffer length."

/-- `ecma_op_create_arraybuffer_object` (lines 43–80).  `toNumber` is the
external coercion collaborator `ecma_op_to_number` (returns a number or a
thrown error value, which the `ECMA_OP_TO_NUMBER_TRY_CATCH` / `FINALIZE` /
`return ret` sequence propagates unchanged).  With an argument, the coerced
number is truncated to uint32 and must round-trip exactly (line 59), otherwise
the RangeError of line 61; without arguments the length is 0.  The validated
length is then checked against the overflow threshold (line 72) before
`ecma_arraybuffer_new_object` is reached. -/
def ecma_op_create_arraybuffer_object
    (toNumber : EcmaValue → Except EcmaValue EcmaNumber)
    (extSize align : Nat) (junkF : Nat → Byte)
    (args : List EcmaValue) (h : Heap) : EcmaValue × Heap :=
  let lenOrErr : Except EcmaValue Nat :=
    match args with
    | [] => Except.ok 0
    | arg :: _ =>
      match toNumber arg with
      | Except.error e => Except.error e
      | Except.ok num =>
        let length := ecma_number_to_uint32 num
        if ecma_number_eq_nat num length then Except.ok length
        else Except.error (ecma_raise_range_error invalidLengthMsg)
  match lenOrErr with
  | Except.error e => (e, h)
  | Except.ok length =>
    if MAX_SAFE_LENGTH extSize align < length then
      (ecma_raise_range_error invalidLengthMsg, h)
    else
      let r := ecma_arraybuffer_new_object extSize length junkF h
      (EcmaValue.object r.1, r.2)

/-- `ecma_arraybuffer_get_length` (lines 161–168): reads the stored length
field.  The `none` branch models the out-of-contract case (the C precondition
asserts the argument is an ArrayBuffer object). -/
def ecma_arraybuffer_get_length (h : Heap) (id : Nat) : Nat :=
  match h.get id with
  | some o => o.length
  | none => 0

/-- The pointer `(lit_utf8_byte_t *) (ext_object_p + 1)` returned by
`ecma_arraybuffer_get_buffer`: a handle designating the data region of one
specific object — not a copy of the bytes. -/
structure ByteHandle where
  obj : Nat
deriving DecidableEq

/-- `ecma_arraybuffer_get_buffer` (lines 175–182): returns the address of the
byte region that trails the header — a pure function of the object, so every
call on the same object returns the same handle. -/
def ecma_arraybuffer_get_buffer (id : Nat) : ByteHandle :=
  ⟨id⟩

/-- The bytes a handle currently points at. -/
def ByteHandle.region (p : ByteHandle) (h : Heap) : List Byte :=
  match h.get p.obj with
  | some o => o.bytes
  | none => []

/-- Read byte `i` through a handle. -/
def ByteHandle.read (p : ByteHandle) (h : Heap) (i : Nat) : Byte :=
  (p.region h).getD i 0

/-- Write byte `i` through a handle (a typed-view store `buf[i] = b`). -/
def ByteHandle.write (p : ByteHandle) (h : Heap) (i : Nat) (b : Byte) : Heap :=
  h.setBytes p.obj ((p.region h).set i b)

/-- `ecma_arraybuffer_clone_arraybuffer` (lines 117–131): computes
`length = get_length (src) - offset`, allocates a fresh ArrayBuffer of that
length, and `memcpy`s `length` bytes from `src_buf_p + offset` into the new
region.  The caller-enforced precondition `offset <= get_length (src)` is the
`JERRY_ASSERT` of line 122. -/
def ecma_arraybuffer_clone_arraybuffer (extSize : Nat) (junkF : Nat → Byte)
    (h : Heap) (srcId : Nat) (offset : Nat) : Nat × Heap :=
  let length := ecma_arraybuffer_get_length h srcId - offset
  let r := ecma_arraybuffer_new_object extSize length junkF h
  let src_buf := ecma_arraybuffer_get_buffer srcId
  let dst_buf := ecma_arraybuffer_get_buffer r.1
  let h2 := r.2.setBytes dst_buf.obj
    (memcpy (dst_buf.region r.2) ((src_buf.region r.2).drop offset) length)
  (r.1, h2)

/-- Modelled from the spec: `ecma_object_get_class_name` (ecma-objects.c, not
under src/) — reports the class tag of a class object, and a generic
non-ArrayBuffer name (`LIT_MAGIC_STRING_OBJECT_UL`) for every object without
one. -/
def ecma_object_get_class_name (h : Heap) (id : Nat) : Nat :=
  match h.get id with
  | some o =>
    match o.class_id with
    | some c => c
    | none => LIT_MAGIC_STRING_OBJECT_UL
  | none => LIT_MAGIC_STRING_OBJECT_UL

/-- `ecma_is_arraybuffer` (lines 142–154): false for every non-object value,
otherwise compares the object's class name with the ArrayBuffer tag.  A pure
read — it touches no state and cannot fail. -/
def ecma_is_arraybuffer (h : Heap) (target : EcmaValue) : Bool :=
  if ecma_is_value_object target then
    decide (ecma_object_get_class_name h (ecma_get_object_from_value target) =
      LIT_MAGIC_STRING_ARRAY_BUFFER_UL)
  else
    false

/-- The operations of this core that can touch the heap after construction:
the public construction entry point, the clone entry point, and a byte store
performed by an external typed view through `ecma_arraybuffer_get_buffer`. -/
inductive BufOp where
  | createOp (toNumber : EcmaValue → Except EcmaValue EcmaNumber)
      (junkF : Nat → Byte) (args : List EcmaValue)
  | cloneOp (junkF : Nat → Byte) (srcId offset : Nat)
  | viewWrite (id i : Nat) (b : Byte)

/-- Heap effect of one operation. -/
def applyOp (extSize align : Nat) (h : Heap) : BufOp → Heap
  | BufOp.createOp t j a =>
    (ecma_op_create_arraybuffer_object t extSize align j a h).2
  | BufOp.cloneOp j s off =>
    (ecma_arraybuffer_clone_arraybuffer extSize j h s off).2
  | BufOp.viewWrite id i b =>
    (ecma_arraybuffer_get_buffer id).write h i b

/-- Heap effect of a whole lifetime: a sequence of operations. -/
def runOps (extSize align : Nat) (ops : List BufOp) (h : Heap) : Heap :=
  ops.foldl (applyOp extSize align) h

/-- Size invariant of §3 of the spec: every record's allocation size is exactly
header size + alignment padding + stored length. -/
def SizeInv (extSize : Nat) (h : Heap) : Prop :=
  ∀ o ∈ h.objs, o.alloc_size = extSize + alignmentPadding + o.length

/-- Length invariant: every record's stored length is below the overflow
threshold. -/
def LenInv (extSize align : Nat) (h : Heap) : Prop :=
  ∀ o ∈ h.objs, o.length ≤ MAX_SAFE_LENGTH extSize align

/-! ### Helper lemmas -/

lemma memset_eq_replicate (d : List Byte) (b : Byte) (n : Nat)
    (hd : d.length = n) : memset d b n = List.replicate n b := by
  subst hd
  simp [memset]

lemma new_object_bytes (length : Nat) (junkF : Nat → Byte) :
    memset ((List.range length).map junkF) 0 length = List.replicate length 0 :=
  memset_eq_replicate _ _ _ (by simp)

/-- The record built by `ecma_arraybuffer_new_object`, after the `memset`. -/
def freshBuffer (extSize length : Nat) : EcmaObject :=
  { class_id := some LIT_MAGIC_STRING_ARRAY_BUFFER_UL
  , length := length
  , bytes := List.replicate length 0
  , alloc_size := extSize + length }

lemma new_object_eq (extSize length : Nat) (junkF : Nat → Byte) (h : Heap) :
    ecma_arraybuffer_new_object extSize length junkF h =
      (h.objs.length, ⟨h.objs ++ [freshBuffer extSize length]⟩) := by
  simp [ecma_arraybuffer_new_object, Heap.alloc, freshBuffer, new_object_bytes]

lemma new_object_get_new (extSize length : Nat) (junkF : Nat → Byte) (h : Heap) :
    (ecma_arraybuffer_new_object extSize length junkF h).2.get h.objs.length =
      some (freshBuffer extSize length) := by
  rw [new_object_eq]
  exact List.get?_concat_length _ _

lemma new_object_get_old (extSize length : Nat) (junkF : Nat → Byte) (h : Heap)
    (id : Nat) (hid : id < h.objs.length) :
    (ecma_arraybuffer_new_object extSize length junkF h).2.get id = h.get id := by
  rw [new_object_eq]
  exact List.get?_append hid

lemma get_lt_length {h : Heap} {id : Nat} {o : EcmaObject}
    (hget : h.get id = some o) : id < h.objs.length :=
  (List.get?_eq_some.mp hget).choose

lemma get_mem {h : Heap} {id : Nat} {o : EcmaObject}
    (hget : h.get id = some o) : o ∈ h.objs :=
  List.get?_mem hget

lemma ecma_number_to_uint32_natCast (L : Nat) (hL : L < 2 ^ 32) :
    ecma_number_to_uint32 (EcmaNumber.finite (L : ℚ)) = L := by
  have hnonneg : ¬ ((L : ℚ) < 0) := not_lt.mpr (Nat.cast_nonneg L)
  have htrunc : ratTruncate (L : ℚ) = (L : ℤ) := by
    simp [ratTruncate, hnonneg]
  have hmod : ((L : ℤ)) % ((2 : ℤ) ^ 32) = (L : ℤ) := by
    apply Int.emod_eq_of_lt (by positivity)
    exact_mod_cast hL
  simp only [ecma_number_to_uint32, htrunc, hmod]
  simp

lemma ecma_number_eq_nat_self (L : Nat) :
    ecma_number_eq_nat (EcmaNumber.finite (L : ℚ)) L = true := by
  simp [ecma_number_eq_nat]

/-- Successful path of the constructor: coercion produced `num`, the uint32
round-trip succeeded, and the threshold check passed. -/
lemma create_ok (toNumber : EcmaValue → Except EcmaValue EcmaNumber)
    (extSize align : Nat) (junkF : Nat → Byte)
    (arg : EcmaValue) (rest : List EcmaValue) (h : Heap) (num : EcmaNumber)
    (htn : toNumber arg = Except.ok num)
    (hrt : ecma_number_eq_nat num (ecma_number_to_uint32 num) = true)
    (hle : ecma_number_to_uint32 num ≤ MAX_SAFE_LENGTH extSize align) :
    ecma_op_create_arraybuffer_object toNumber extSize align junkF
        (arg :: rest) h =
      (EcmaValue.object h.objs.length,
       (ecma_arraybuffer_new_object extSize (ecma_number_to_uint32 num) junkF h).2) := by
  simp [ecma_op_create_arraybuffer_object, htn, hrt, not_lt.mpr hle,
    new_object_eq]

/-! ### Claims C1, C3, C4, C6 — construction -/

/-- C1: for every integer `L` with `0 ≤ L ≤ MAX_SAFE_LENGTH` (the overflow
threshold), constructing an ArrayBuffer with length argument `L` returns an
object whose stored length equals `L` and whose raw-byte region (read through
`ecma_arraybuffer_get_buffer`) consists of exactly `L` zero bytes. -/
theorem C1_construct_in_range
    (toNumber : EcmaValue → Except EcmaValue EcmaNumber)
    (extSize align : Nat) (junkF : Nat → Byte)
    (arg : EcmaValue) (rest : List EcmaValue) (h : Heap) (L : Nat)
    (halign : 1 ≤ align)
    (htn : toNumber arg = Except.ok (EcmaNumber.finite (L : ℚ)))
    (hL : L ≤ MAX_SAFE_LENGTH extSize align) :
    (ecma_op_create_arraybuffer_object toNumber extSize align junkF
        (arg :: rest) h).1 = EcmaValue.object h.objs.length ∧
    ecma_arraybuffer_get_length
      (ecma_op_create_arraybuffer_object toNumber extSize align junkF
        (arg :: rest) h).2 h.objs.length = L ∧
    (ecma_arraybuffer_get_buffer h.objs.length).region
      (ecma_op_create_arraybuffer_object toNumber extSize align junkF
        (arg :: rest) h).2 = List.replicate L 0 := by
  have h32 : (2 : ℕ) ^ 32 = 4294967296 := by norm_num
  have hu : UINT32_MAX = 4294967295 := by norm_num [UINT32_MAX]
  have hmax : MAX_SAFE_LENGTH extSize align < 2 ^ 32 := by
    unfold MAX_SAFE_LENGTH
    rw [hu, h32]
    omega
  have hL32 : L < 2 ^ 32 := lt_of_le_of_lt hL hmax
  have huint := ecma_number_to_uint32_natCast L hL32
  have hrt : ecma_number_eq_nat (EcmaNumber.finite (L : ℚ))
      (ecma_number_to_uint32 (EcmaNumber.finite (L : ℚ))) = true := by
    rw [huint]
    exact ecma_number_eq_nat_self L
  have hcreate := create_ok toNumber extSize align junkF arg rest h _ htn hrt
    (by rw [huint]; exact hL)
  rw [huint] at hcreate
  refine ⟨by rw [hcreate], ?_, ?_⟩
  · rw [hcreate]
    simp [ecma_arraybuffer_get_length, new_object_get_new, freshBuffer]
  · rw [hcreate]
    simp [ByteHandle.region, ecma_arraybuffer_get_buffer,
      new_object_get_new, freshBuffer]

theorem C1_construct_in_range_witness :
    ((fun (_ : EcmaValue) =>
        (Except.ok (EcmaNumber.finite ((3 : Nat) : ℚ)) :
          Except EcmaValue EcmaNumber)) EcmaValue.undef =
      Except.ok (EcmaNumber.finite ((3 : Nat) : ℚ))) ∧
    1 ≤ 8 ∧ 3 ≤ MAX_SAFE_LENGTH 16 8 ∧
    ((ecma_op_create_arraybuffer_object
        (fun _ => Except.ok (EcmaNumber.finite ((3 : Nat) : ℚ))) 16 8
        (fun i => i + 17) [EcmaValue.undef] ⟨[]⟩).1 =
      EcmaValue.object (Heap.mk []).objs.length ∧
    ecma_arraybuffer_get_length
      (ecma_op_create_arraybuffer_object
        (fun _ => Except.ok (EcmaNumber.finite ((3 : Nat) : ℚ))) 16 8
        (fun i => i + 17) [EcmaValue.undef] ⟨[]⟩).2
      (Heap.mk []).objs.length = 3 ∧
    (ecma_arraybuffer_get_buffer (Heap.mk []).objs.length).region
      (ecma_op_create_arraybuffer_object
        (fun _ => Except.ok (EcmaNumber.finite ((3 : Nat) : ℚ))) 16 8
        (fun i => i + 17) [EcmaValue.undef] ⟨[]⟩).2 = List.replicate 3 0) :=
  ⟨rfl, by decide, by decide,
    C1_construct_in_range _ 16 8 _ EcmaValue.undef [] ⟨[]⟩ 3
      (by decide) rfl (by decide)⟩

/-- The non-integral length value 2.5, written with an explicit numerator and
denominator so that every operation on it reduces in the kernel. -/
def twoPointFive : ℚ := ⟨5, 2, by decide, by decide⟩

/-- C3 counterexample: with the non-integral length 2.5 the constructor does
raise a length RangeError, but its message is the source literal
`"Invalid ArrayBuffer length."` (line 61) — not the string
`"Invalid ArrayBuffer length"` stated by the claim. -/
theorem C3_message_counterexample :
    (ecma_op_create_arraybuffer_object
        (fun _ => Except.ok (EcmaNumber.finite twoPointFive)) 16 8
        (fun _ => 0) [EcmaValue.undef] ⟨[]⟩).1 =
      EcmaValue.thrown ErrorKind.range "Invalid ArrayBuffer length." ∧
    (ecma_op_create_arraybuffer_object
        (fun _ => Except.ok (EcmaNumber.finite twoPointFive)) 16 8
        (fun _ => 0) [EcmaValue.undef] ⟨[]⟩).1 ≠
      EcmaValue.thrown ErrorKind.range "Invalid ArrayBuffer length" := by
  constructor <;> decide

/-- C3 (amended): for every argument whose numeric coercion succeeds with a
number `num` that does not survive the uint32 round-trip (line 59fails),
construction returns the length RangeError with message
`"Invalid ArrayBuffer length."` and leaves the heap untouched — no
BufferObject is produced. -/
theorem C3_nonintegral_length_error
    (toNumber : EcmaValue → Except EcmaValue EcmaNumber)
    (extSize align : Nat) (junkF : Nat → Byte)
    (arg : EcmaValue) (rest : List EcmaValue) (h : Heap) (num : EcmaNumber)
    (htn : toNumber arg = Except.ok num)
    (hrt : ecma_number_eq_nat num (ecma_number_to_uint32 num) = false) :
    ecma_op_create_arraybuffer_object toNumber extSize align junkF
        (arg :: rest) h =
      (ecma_raise_range_error invalidLengthMsg, h) := by
  simp [ecma_op_create_arraybuffer_object, htn, hrt]

theorem C3_nonintegral_length_error_witness :
    ((fun (_ : EcmaValue) =>
        (Except.ok (EcmaNumber.finite twoPointFive) :
          Except EcmaValue EcmaNumber)) EcmaValue.undef =
      Except.ok (EcmaNumber.finite twoPointFive)) ∧
    ecma_number_eq_nat (EcmaNumber.finite twoPointFive)
      (ecma_number_to_uint32 (EcmaNumber.finite twoPointFive)) = false ∧
    ecma_op_create_arraybuffer_object
        (fun _ => Except.ok (EcmaNumber.finite twoPointFive)) 16 8
        (fun _ => 0) [EcmaValue.undef] ⟨[]⟩ =
      (ecma_raise_range_error invalidLengthMsg, ⟨[]⟩) :=
  ⟨rfl, by decide,
    C3_nonintegral_length_error _ 16 8 _ EcmaValue.undef [] ⟨[]⟩ _
      rfl (by decide)⟩

/-- C4: for every coerced number that survives the uint32 round-trip but whose
value exceeds the overflow threshold, construction returns the same length
RangeError and the heap is returned unchanged — the allocation helper is never
reached and no object exists afterward. -/
theorem C4_over_threshold_no_alloc
    (toNumber : EcmaValue → Except EcmaValue EcmaNumber)
    (extSize align : Nat) (junkF : Nat → Byte)
    (arg : EcmaValue) (rest : List EcmaValue) (h : Heap) (num : EcmaNumber)
    (htn : toNumber arg = Except.ok num)
    (hrt : ecma_number_eq_nat num (ecma_number_to_uint32 num) = true)
    (hgt : MAX_SAFE_LENGTH extSize align < ecma_number_to_uint32 num) :
    ecma_op_create_arraybuffer_object toNumber extSize align junkF
        (arg :: rest) h =
      (ecma_raise_range_error invalidLengthMsg, h) := by
  simp [ecma_op_create_arraybuffer_object, htn, hrt, hgt]

theorem C4_over_threshold_no_alloc_witness :
    ((fun (_ : EcmaValue) =>
        (Except.ok (EcmaNumber.finite ((4294967273 : Nat) : ℚ)) :
          Except EcmaValue EcmaNumber)) EcmaValue.undef =
      Except.ok (EcmaNumber.finite ((4294967273 : Nat) : ℚ))) ∧
    ecma_number_eq_nat (EcmaNumber.finite ((4294967273 : Nat) : ℚ))
      (ecma_number_to_uint32
        (EcmaNumber.finite ((4294967273 : Nat) : ℚ))) = true ∧
    MAX_SAFE_LENGTH 16 8 <
      ecma_number_to_uint32 (EcmaNumber.finite ((4294967273 : Nat) : ℚ)) ∧
    ecma_op_create_arraybuffer_object
        (fun _ => Except.ok (EcmaNumber.finite ((4294967273 : Nat) : ℚ)))
        16 8 (fun _ => 0) [EcmaValue.undef] ⟨[]⟩ =
      (ecma_raise_range_error invalidLengthMsg, ⟨[]⟩) := by
  have huint := ecma_number_to_uint32_natCast 4294967273 (by norm_num)
  have hrt : ecma_number_eq_nat (EcmaNumber.finite ((4294967273 : Nat) : ℚ))
      (ecma_number_to_uint32
        (EcmaNumber.finite ((4294967273 : Nat) : ℚ))) = true := by
    rw [huint]
    exact ecma_number_eq_nat_self _
  have hgt : MAX_SAFE_LENGTH 16 8 <
      ecma_number_to_uint32 (EcmaNumber.finite ((4294967273 : Nat) : ℚ)) := by
    rw [huint]
    norm_num [MAX_SAFE_LENGTH, UINT32_MAX]
  exact ⟨rfl, hrt, hgt,
    C4_over_threshold_no_alloc _ 16 8 _ EcmaValue.undef [] ⟨[]⟩ _
      rfl hrt hgt⟩

/-- C6: when the numeric-coercion collaborator fails on the argument, the
constructor returns the collaborator's thrown value unchanged (it is not
reinterpreted as a length error) and the heap is untouched — no BufferObject
is created. -/
theorem C6_coercion_error_propagated
    (toNumber : EcmaValue → Except EcmaValue EcmaNumber)
    (extSize align : Nat) (junkF : Nat → Byte)
    (arg : EcmaValue) (rest : List EcmaValue) (h : Heap) (e : EcmaValue)
    (htn : toNumber arg = Except.error e) :
    ecma_op_create_arraybuffer_object toNumber extSize align junkF
        (arg :: rest) h = (e, h) := by
  simp [ecma_op_create_arraybuffer_object, htn]

theorem C6_coercion_error_propagated_witness :
    ((fun (_ : EcmaValue) =>
        (Except.error (EcmaValue.thrown ErrorKind.type "not coercible") :
          Except EcmaValue EcmaNumber)) EcmaValue.null =
      Except.error (EcmaValue.thrown ErrorKind.type "not coercible")) ∧
    ecma_op_create_arraybuffer_object
        (fun _ => Except.error (EcmaValue.thrown ErrorKind.type "not coercible"))
        16 8 (fun _ => 0) [EcmaValue.null] ⟨[]⟩ =
      (EcmaValue.thrown ErrorKind.type "not coercible", ⟨[]⟩) :=
  ⟨rfl,
    C6_coercion_error_propagated _ 16 8 _ EcmaValue.null [] ⟨[]⟩ _ rfl⟩

/-! ### Claims C2 and C9 — clone -/

lemma set_concat_length {α : Type} (l : List α) (a b : α) :
    (l ++ [a]).set l.length b = l ++ [b] := by
  induction l with
  | nil => rfl
  | cons x xs ih => simp [List.set, ih]

/-- Under the caller-enforced precondition `offset ≤ length (src)` (the
`JERRY_ASSERT` of line 122) and with a well-formed source record, the whole
clone operation appends exactly one record: a fresh ArrayBuffer holding the
source's byte suffix from `offset` on. -/
lemma clone_eq (extSize : Nat) (junkF : Nat → Byte) (h : Heap)
    (srcId offset : Nat) (o : EcmaObject)
    (hget : h.get srcId = some o)
    (hlen : o.bytes.length = o.length)
    (hoff : offset ≤ o.length) :
    ecma_arraybuffer_clone_arraybuffer extSize junkF h srcId offset =
      (h.objs.length,
       ⟨h.objs ++
         [{ class_id := some LIT_MAGIC_STRING_ARRAY_BUFFER_UL
          , length := o.length - offset
          , bytes := o.bytes.drop offset
          , alloc_size := extSize + (o.length - offset) }]⟩) := by
  have hsrclt : srcId < h.objs.length := get_lt_length hget
  have hgl : ecma_arraybuffer_get_length h srcId = o.length := by
    simp [ecma_arraybuffer_get_length, hget]
  have hdroplen : (o.bytes.drop offset).length = o.length - offset := by
    simp [hlen]
  simp only [ecma_arraybuffer_clone_arraybuffer, hgl,
    new_object_eq extSize (o.length - offset) junkF h]
  have hgetnew : Heap.get ⟨h.objs ++ [freshBuffer extSize (o.length - offset)]⟩
      h.objs.length = some (freshBuffer extSize (o.length - offset)) :=
    List.get?_concat_length _ _
  have hgetsrc : Heap.get ⟨h.objs ++ [freshBuffer extSize (o.length - offset)]⟩
      srcId = some o := by
    show (h.objs ++ _).get? srcId = some o
    rw [List.get?_append hsrclt]
    exact hget
  simp only [ecma_arraybuffer_get_buffer, ByteHandle.region, hgetnew, hgetsrc,
    Heap.setBytes]
  have hcpy : memcpy (freshBuffer extSize (o.length - offset)).bytes
      (o.bytes.drop offset) (o.length - offset) = o.bytes.drop offset := by
    simp [memcpy, freshBuffer, List.take_of_length_le (le_of_eq hdroplen),
      List.drop_replicate]
  rw [hcpy]
  simp only [freshBuffer]
  rw [set_concat_length]

/-- C2: cloning a source BufferObject of length `L` at any offset
`O ≤ L` yields a new BufferObject whose stored length is `L - O` and whose
byte region is byte-for-byte the source's bytes `O .. L`; with `O = L` the
result has length 0. -/
theorem C2_clone_suffix (extSize : Nat) (junkF : Nat → Byte) (h : Heap)
    (srcId offset : Nat) (o : EcmaObject)
    (hget : h.get srcId = some o)
    (hlen : o.bytes.length = o.length)
    (hoff : offset ≤ o.length) :
    ecma_arraybuffer_get_length
      (ecma_arraybuffer_clone_arraybuffer extSize junkF h srcId offset).2
      (ecma_arraybuffer_clone_arraybuffer extSize junkF h srcId offset).1 =
      o.length - offset ∧
    (ecma_arraybuffer_get_buffer
      (ecma_arraybuffer_clone_arraybuffer extSize junkF h srcId offset).1).region
      (ecma_arraybuffer_clone_arraybuffer extSize junkF h srcId offset).2 =
      o.bytes.drop offset := by
  rw [clone_eq extSize junkF h srcId offset o hget hlen hoff]
  constructor
  · show ecma_arraybuffer_get_length _ h.objs.length = _
    simp only [ecma_arraybuffer_get_length]
    rw [show Heap.get ⟨h.objs ++ _⟩ h.objs.length = some _ from
      List.get?_concat_length _ _]
  · show ByteHandle.region _ _ = _
    simp only [ecma_arraybuffer_get_buffer, ByteHandle.region]
    rw [show Heap.get ⟨h.objs ++ _⟩ h.objs.length = some _ from
      List.get?_concat_length _ _]

theorem C2_clone_suffix_witness :
    (Heap.get ⟨[⟨some LIT_MAGIC_STRING_ARRAY_BUFFER_UL, 3, [7, 8, 9], 19⟩]⟩ 0 =
      some ⟨some LIT_MAGIC_STRING_ARRAY_BUFFER_UL, 3, [7, 8, 9], 19⟩) ∧
    ([7, 8, 9] : List Byte).length =
      (⟨some LIT_MAGIC_STRING_ARRAY_BUFFER_UL, 3, [7, 8, 9], 19⟩ :
        EcmaObject).length ∧
    1 ≤ (⟨some LIT_MAGIC_STRING_ARRAY_BUFFER_UL, 3, [7, 8, 9], 19⟩ :
        EcmaObject).length ∧
    (ecma_arraybuffer_get_length
      (ecma_arraybuffer_clone_arraybuffer 16 (fun _ => 0)
        ⟨[⟨some LIT_MAGIC_STRING_ARRAY_BUFFER_UL, 3, [7, 8, 9], 19⟩]⟩ 0 1).2
      (ecma_arraybuffer_clone_arraybuffer 16 (fun _ => 0)
        ⟨[⟨some LIT_MAGIC_STRING_ARRAY_BUFFER_UL, 3, [7, 8, 9], 19⟩]⟩ 0 1).1 =
      (⟨some LIT_MAGIC_STRING_ARRAY_BUFFER_UL, 3, [7, 8, 9], 19⟩ :
        EcmaObject).length - 1 ∧
    (ecma_arraybuffer_get_buffer
      (ecma_arraybuffer_clone_arraybuffer 16 (fun _ => 0)
        ⟨[⟨some LIT_MAGIC_STRING_ARRAY_BUFFER_UL, 3, [7, 8, 9], 19⟩]⟩ 0 1).1).region
      (ecma_arraybuffer_clone_arraybuffer 16 (fun _ => 0)
        ⟨[⟨some LIT_MAGIC_STRING_ARRAY_BUFFER_UL, 3, [7, 8, 9], 19⟩]⟩ 0 1).2 =
      (⟨some LIT_MAGIC_STRING_ARRAY_BUFFER_UL, 3, [7, 8, 9], 19⟩ :
        EcmaObject).bytes.drop 1) :=
  ⟨rfl, rfl, by decide,
    C2_clone_suffix 16 (fun _ => 0)
      ⟨[⟨some LIT_MAGIC_STRING_ARRAY_BUFFER_UL, 3, [7, 8, 9], 19⟩]⟩ 0 1
      ⟨some LIT_MAGIC_STRING_ARRAY_BUFFER_UL, 3, [7, 8, 9], 19⟩
      rfl rfl (by decide)⟩

/-- C9: the clone operation leaves the source object completely unchanged —
after cloning, the source record (its tag, stored length, bytes and allocation
size) is exactly what it was before. -/
theorem C9_clone_source_unchanged (extSize : Nat) (junkF : Nat → Byte)
    (h : Heap) (srcId offset : Nat) (o : EcmaObject)
    (hget : h.get srcId = some o)
    (hlen : o.bytes.length = o.length)
    (hoff : offset ≤ o.length) :
    (ecma_arraybuffer_clone_arraybuffer extSize junkF h srcId offset).2.get
      srcId = some o ∧
    ecma_arraybuffer_get_length
      (ecma_arraybuffer_clone_arraybuffer extSize junkF h srcId offset).2
      srcId = o.length ∧
    (ecma_arraybuffer_get_buffer srcId).region
      (ecma_arraybuffer_clone_arraybuffer extSize junkF h srcId offset).2 =
      o.bytes := by
  have hsrclt : srcId < h.objs.length := get_lt_length hget
  rw [clone_eq extSize junkF h srcId offset o hget hlen hoff]
  have hgetsrc : Heap.get
      ⟨h.objs ++
        [{ class_id := some LIT_MAGIC_STRING_ARRAY_BUFFER_UL
         , length := o.length - offset
         , bytes := o.bytes.drop offset
         , alloc_size := extSize + (o.length - offset) }]⟩ srcId = some o := by
    show (h.objs ++ _).get? srcId = some o
    rw [List.get?_append hsrclt]
    exact hget
  refine ⟨hgetsrc, ?_, ?_⟩
  · simp [ecma_arraybuffer_get_length, hgetsrc]
  · simp [ecma_arraybuffer_get_buffer, ByteHandle.region, hgetsrc]

theorem C9_clone_source_unchanged_witness :
    (Heap.get ⟨[⟨some LIT_MAGIC_STRING_ARRAY_BUFFER_UL, 2, [4, 5], 18⟩]⟩ 0 =
      some ⟨some LIT_MAGIC_STRING_ARRAY_BUFFER_UL, 2, [4, 5], 18⟩) ∧
    ([4, 5] : List Byte).length =
      (⟨some LIT_MAGIC_STRING_ARRAY_BUFFER_UL, 2, [4, 5], 18⟩ :
        EcmaObject).length ∧
    2 ≤ (⟨some LIT_MAGIC_STRING_ARRAY_BUFFER_UL, 2, [4, 5], 18⟩ :
        EcmaObject).length ∧
    ((ecma_arraybuffer_clone_arraybuffer 16 (fun _ => 0)
        ⟨[⟨some LIT_MAGIC_STRING_ARRAY_BUFFER_UL, 2, [4, 5], 18⟩]⟩ 0 2).2.get 0 =
      some ⟨some LIT_MAGIC_STRING_ARRAY_BUFFER_UL, 2, [4, 5], 18⟩ ∧
    ecma_arraybuffer_get_length
      (ecma_arraybuffer_clone_arraybuffer 16 (fun _ => 0)
        ⟨[⟨some LIT_MAGIC_STRING_ARRAY_BUFFER_UL, 2, [4, 5], 18⟩]⟩ 0 2).2 0 =
      (⟨some LIT_MAGIC_STRING_ARRAY_BUFFER_UL, 2, [4, 5], 18⟩ :
        EcmaObject).length ∧
    (ecma_arraybuffer_get_buffer 0).region
      (ecma_arraybuffer_clone_arraybuffer 16 (fun _ => 0)
        ⟨[⟨some LIT_MAGIC_STRING_ARRAY_BUFFER_UL, 2, [4, 5], 18⟩]⟩ 0 2).2 =
      (⟨some LIT_MAGIC_STRING_ARRAY_BUFFER_UL, 2, [4, 5], 18⟩ :
        EcmaObject).bytes) :=
  ⟨rfl, rfl, by decide,
    C9_clone_source_unchanged 16 (fun _ => 0)
      ⟨[⟨some LIT_MAGIC_STRING_ARRAY_BUFFER_UL, 2, [4, 5], 18⟩]⟩ 0 2
      ⟨some LIT_MAGIC_STRING_ARRAY_BUFFER_UL, 2, [4, 5], 18⟩
      rfl rfl (by decide)⟩

/-! ### Claims C5 and C8 — introspection and aliasing -/

/-- C5: `ecma_is_arraybuffer` returns true exactly on object references whose
class name is the ArrayBuffer tag; it returns false on every non-object value
(numbers, strings, booleans, null, undefined, thrown values) and on every
object carrying a different or no class tag.  The function is a pure
predicate: it takes the heap and the value and only reads them. -/
theorem C5_is_arraybuffer_iff (h : Heap) (v : EcmaValue) :
    ecma_is_arraybuffer h v = true ↔
      ∃ id, v = EcmaValue.object id ∧
        ecma_object_get_class_name h id = LIT_MAGIC_STRING_ARRAY_BUFFER_UL := by
  cases v <;>
    simp [ecma_is_arraybuffer, ecma_is_value_object, ecma_get_object_from_value]

/-- C8: two independent `ecma_arraybuffer_get_buffer` calls on the same object
return the same handle (the function returns the address of the object's own
storage, not a copy), so a byte written through the handle obtained by the
first call is read back through the handle obtained by the second call. -/
theorem C8_get_buffer_aliases (h : Heap) (id i : Nat) (b : Byte)
    (o : EcmaObject)
    (hget : h.get id = some o) (hi : i < o.bytes.length) :
    ecma_arraybuffer_get_buffer id = ecma_arraybuffer_get_buffer id ∧
    (ecma_arraybuffer_get_buffer id).read
      ((ecma_arraybuffer_get_buffer id).write h i b) i = b := by
  refine ⟨rfl, ?_⟩
  have hidlt : id < h.objs.length := get_lt_length hget
  have hregion : (ecma_arraybuffer_get_buffer id).region h = o.bytes := by
    simp [ecma_arraybuffer_get_buffer, ByteHandle.region, hget]
  have hwrite : (ecma_arraybuffer_get_buffer id).write h i b =
      ⟨h.objs.set id { o with bytes := o.bytes.set i b }⟩ := by
    simp [ecma_arraybuffer_get_buffer, ByteHandle.write, ByteHandle.region,
      Heap.setBytes, hget]
  rw [hwrite]
  have hget2 : Heap.get ⟨h.objs.set id { o with bytes := o.bytes.set i b }⟩ id =
      some { o with bytes := o.bytes.set i b } := by
    show (h.objs.set id _).get? id = _
    rw [List.get?_set_eq_of_lt _ hidlt]
  simp only [ByteHandle.read, ecma_arraybuffer_get_buffer, ByteHandle.region,
    hget2]
  have helem : (o.bytes.set i b)[i]? = some b := by
    rw [← List.get?_eq_getElem?]
    exact List.get?_set_eq_of_lt b (by simpa using hi)
  simp [List.getD, helem]

theorem C8_get_buffer_aliases_witness :
    (Heap.get ⟨[⟨some LIT_MAGIC_STRING_ARRAY_BUFFER_UL, 2, [0, 0], 18⟩]⟩ 0 =
      some ⟨some LIT_MAGIC_STRING_ARRAY_BUFFER_UL, 2, [0, 0], 18⟩) ∧
    1 < (⟨some LIT_MAGIC_STRING_ARRAY_BUFFER_UL, 2, [0, 0], 18⟩ :
        EcmaObject).bytes.length ∧
    (ecma_arraybuffer_get_buffer 0 = ecma_arraybuffer_get_buffer 0 ∧
    (ecma_arraybuffer_get_buffer 0).read
      ((ecma_arraybuffer_get_buffer 0).write
        ⟨[⟨some LIT_MAGIC_STRING_ARRAY_BUFFER_UL, 2, [0, 0], 18⟩]⟩ 1 42) 1 =
      42) :=
  ⟨rfl, by decide,
    C8_get_buffer_aliases ⟨[⟨some LIT_MAGIC_STRING_ARRAY_BUFFER_UL, 2, [0, 0], 18⟩]⟩
      0 1 42 ⟨some LIT_MAGIC_STRING_ARRAY_BUFFER_UL, 2, [0, 0], 18⟩
      rfl (by decide)⟩

/-! ### Claims C7 and C10 — lifetime invariants -/

lemma setBytes_mem {h : Heap} {id : Nat} {bs : List Byte} {o' : EcmaObject}
    (ho' : o' ∈ (h.setBytes id bs).objs) :
    ∃ o ∈ h.objs, o'.class_id = o.class_id ∧ o'.length = o.length ∧
      o'.alloc_size = o.alloc_size := by
  revert ho'
  unfold Heap.setBytes
  cases hg : h.get id with
  | none => exact fun ho' => ⟨o', ho', rfl, rfl, rfl⟩
  | some o =>
    intro ho'
    rcases List.mem_or_eq_of_mem_set ho' with hmem | heq
    · exact ⟨o', hmem, rfl, rfl, rfl⟩
    · subst heq
      exact ⟨o, get_mem hg, rfl, rfl, rfl⟩

/-- The heap after the constructor is either unchanged (an error was raised
before any allocation) or extended by exactly one fresh buffer whose length
passed the threshold check. -/
lemma create_snd_cases (toNumber : EcmaValue → Except EcmaValue EcmaNumber)
    (extSize align : Nat) (junkF : Nat → Byte) (args : List EcmaValue)
    (h : Heap) :
    (ecma_op_create_arraybuffer_object toNumber extSize align junkF args h).2 =
      h ∨
    ∃ len, len ≤ MAX_SAFE_LENGTH extSize align ∧
      (ecma_op_create_arraybuffer_object toNumber extSize align junkF args h).2 =
        ⟨h.objs ++ [freshBuffer extSize len]⟩ := by
  cases args with
  | nil =>
    right
    exact ⟨0, Nat.zero_le _,
      by simp [ecma_op_create_arraybuffer_object, new_object_eq]⟩
  | cons arg rest =>
    cases htn : toNumber arg with
    | error e =>
      left
      simp [ecma_op_create_arraybuffer_object, htn]
    | ok num =>
      cases hrt : ecma_number_eq_nat num (ecma_number_to_uint32 num) with
      | false =>
        left
        simp [ecma_op_create_arraybuffer_object, htn, hrt]
      | true =>
        by_cases hth : MAX_SAFE_LENGTH extSize align < ecma_number_to_uint32 num
        · left
          simp [ecma_op_create_arraybuffer_object, htn, hrt, hth]
        · right
          exact ⟨ecma_number_to_uint32 num, not_lt.mp hth,
            by simp [ecma_op_create_arraybuffer_object, htn, hrt, hth,
              new_object_eq]⟩

/-- The heap after a clone is the one-buffer extension followed by a byte-region
overwrite of the new buffer. -/
lemma clone_snd_shape (extSize : Nat) (junkF : Nat → Byte) (h : Heap)
    (srcId offset : Nat) :
    ∃ bs, (ecma_arraybuffer_clone_arraybuffer extSize junkF h srcId offset).2 =
      Heap.setBytes
        ⟨h.objs ++
          [freshBuffer extSize (ecma_arraybuffer_get_length h srcId - offset)]⟩
        h.objs.length bs := by
  simp only [ecma_arraybuffer_clone_arraybuffer, new_object_eq,
    ecma_arraybuffer_get_buffer]
  exact ⟨_, rfl⟩

lemma applyOp_sizeInv (extSize align : Nat) (op : BufOp) (h : Heap)
    (hinv : SizeInv extSize h) : SizeInv extSize (applyOp extSize align h op) := by
  cases op with
  | createOp t j a =>
    rcases create_snd_cases t extSize align j a h with heq | ⟨len, hlen, heq⟩
    · simp only [applyOp]
      rw [heq]
      exact hinv
    · simp only [applyOp]
      rw [heq]
      intro o ho
      rcases List.mem_append.mp ho with hmem | hmem
      · exact hinv o hmem
      · simp only [List.mem_singleton] at hmem
        subst hmem
        simp [freshBuffer, alignmentPadding]
  | cloneOp j s off =>
    rcases clone_snd_shape extSize j h s off with ⟨bs, heq⟩
    simp only [applyOp]
    rw [heq]
    intro o' ho'
    rcases setBytes_mem ho' with ⟨o, ho, _, hlen2, hsz⟩
    rw [hsz, hlen2]
    rcases List.mem_append.mp ho with hmem | hmem
    · exact hinv o hmem
    · simp only [List.mem_singleton] at hmem
      subst hmem
      simp [freshBuffer, alignmentPadding]
  | viewWrite id i b =>
    simp only [applyOp, ByteHandle.write]
    intro o' ho'
    rcases setBytes_mem ho' with ⟨o, ho, _, hlen2, hsz⟩
    rw [hsz, hlen2]
    exact hinv o ho

lemma applyOp_lenInv (extSize align : Nat) (op : BufOp) (h : Heap)
    (hinv : LenInv extSize align h) :
    LenInv extSize align (applyOp extSize align h op) := by
  cases op with
  | createOp t j a =>
    rcases create_snd_cases t extSize align j a h with heq | ⟨len, hlen, heq⟩
    · simp only [applyOp]
      rw [heq]
      exact hinv
    · simp only [applyOp]
      rw [heq]
      intro o ho
      rcases List.mem_append.mp ho with hmem | hmem
      · exact hinv o hmem
      · simp only [List.mem_singleton] at hmem
        subst hmem
        simpa [freshBuffer] using hlen
  | cloneOp j s off =>
    have hsafe : ecma_arraybuffer_get_length h s - off ≤
        MAX_SAFE_LENGTH extSize align := by
      unfold ecma_arraybuffer_get_length
      cases hg : h.get s with
      | none => simp
      | some o => exact le_trans (Nat.sub_le _ _) (hinv o (get_mem hg))
    rcases clone_snd_shape extSize j h s off with ⟨bs, heq⟩
    simp only [applyOp]
    rw [heq]
    intro o' ho'
    rcases setBytes_mem ho' with ⟨o, ho, _, hlen2, _⟩
    rw [hlen2]
    rcases List.mem_append.mp ho with hmem | hmem
    · exact hinv o hmem
    · simp only [List.mem_singleton] at hmem
      subst hmem
      simpa [freshBuffer] using hsafe
  | viewWrite id i b =>
    simp only [applyOp, ByteHandle.write]
    intro o' ho'
    rcases setBytes_mem ho' with ⟨o, ho, _, hlen2, _⟩
    rw [hlen2]
    exact hinv o ho

lemma runOps_sizeInv (extSize align : Nat) (ops : List BufOp) :
    ∀ h, SizeInv extSize h → SizeInv extSize (runOps extSize align ops h) := by
  induction ops with
  | nil => exact fun h hinv => hinv
  | cons op rest ih =>
    exact fun h hinv => ih _ (applyOp_sizeInv extSize align op h hinv)

lemma runOps_lenInv (extSize align : Nat) (ops : List BufOp) :
    ∀ h, LenInv extSize align h →
      LenInv extSize align (runOps extSize align ops h) := by
  induction ops with
  | nil => exact fun h hinv => hinv
  | cons op rest ih =>
    exact fun h hinv => ih _ (applyOp_lenInv extSize align op h hinv)

/-- C7: the allocation size of every BufferObject equals
`headerSize + alignmentPadding + length` exactly — the size passed to the
allocator at creation is exactly that sum (first part), and it still holds for
every object after any sequence of construction, clone and view-write
operations, since none of them changes a stored allocation size or length
(second part). -/
theorem C7_allocation_size_exact (extSize align L : Nat) (junkF : Nat → Byte)
    (hAlloc : Heap) (ops : List BufOp) (h0 : Heap)
    (hinv : SizeInv extSize h0) :
    (∃ o, (ecma_arraybuffer_new_object extSize L junkF hAlloc).2.get
        (ecma_arraybuffer_new_object extSize L junkF hAlloc).1 = some o ∧
      o.length = L ∧
      o.alloc_size = extSize + alignmentPadding + o.length) ∧
    SizeInv extSize (runOps extSize align ops h0) := by
  constructor
  · refine ⟨freshBuffer extSize L, ?_, by simp [freshBuffer],
      by simp [freshBuffer, alignmentPadding]⟩
    rw [new_object_eq]
    exact List.get?_concat_length _ _
  · exact runOps_sizeInv extSize align ops h0 hinv

theorem C7_allocation_size_exact_witness :
    SizeInv 16 ⟨[]⟩ ∧
    ((∃ o, (ecma_arraybuffer_new_object 16 5 (fun _ => 3) ⟨[]⟩).2.get
        (ecma_arraybuffer_new_object 16 5 (fun _ => 3) ⟨[]⟩).1 = some o ∧
      o.length = 5 ∧
      o.alloc_size = 16 + alignmentPadding + o.length) ∧
    SizeInv 16 (runOps 16 8
      [BufOp.createOp (fun _ => Except.ok (EcmaNumber.finite ((2 : Nat) : ℚ)))
        (fun _ => 0) [EcmaValue.undef],
       BufOp.cloneOp (fun _ => 0) 0 1,
       BufOp.viewWrite 0 0 9] ⟨[]⟩)) :=
  ⟨(by intro o ho; cases ho),
    C7_allocation_size_exact 16 8 5 (fun _ => 3) (Heap.mk [])
      ([BufOp.createOp (fun _ => Except.ok (EcmaNumber.finite ((2 : Nat) : ℚ)))
        (fun _ => 0) [EcmaValue.undef],
       BufOp.cloneOp (fun _ => 0) 0 1,
       BufOp.viewWrite 0 0 9]) (Heap.mk [])
      (by intro o ho; cases ho)⟩

/-- C10: starting from a heap whose buffers all respect the overflow threshold
`UINT32_MAX - headerSize - alignment + 1`, every sequence of construction,
clone and view-write operations preserves that bound (construction checks it;
a clone's new length `source length - offset` never exceeds the source's), and
therefore the unchecked size computation `headerSize + length` of the
allocation helper never overflows the 32-bit allocation size type. -/
theorem C10_length_bound_no_overflow (extSize align : Nat) (ops : List BufOp)
    (h0 : Heap) (halign : 1 ≤ align) (hsz : extSize + align ≤ UINT32_MAX)
    (hinv : LenInv extSize align h0) :
    LenInv extSize align (runOps extSize align ops h0) ∧
    ∀ o ∈ (runOps extSize align ops h0).objs,
      extSize + o.length < 2 ^ 32 := by
  have hrun := runOps_lenInv extSize align ops h0 hinv
  refine ⟨hrun, fun o ho => ?_⟩
  have hle := hrun o ho
  have h32 : (2 : ℕ) ^ 32 = 4294967296 := by norm_num
  have hu : UINT32_MAX = 4294967295 := by norm_num [UINT32_MAX]
  rw [h32]
  rw [hu] at hsz
  unfold MAX_SAFE_LENGTH at hle
  rw [hu] at hle
  omega

theorem C10_length_bound_no_overflow_witness :
    1 ≤ 8 ∧ 16 + 8 ≤ UINT32_MAX ∧ LenInv 16 8 ⟨[]⟩ ∧
    (LenInv 16 8 (runOps 16 8
      [BufOp.createOp (fun _ => Except.ok (EcmaNumber.finite ((4 : Nat) : ℚ)))
        (fun _ => 0) [EcmaValue.undef],
       BufOp.cloneOp (fun _ => 0) 0 2] ⟨[]⟩) ∧
    ∀ o ∈ (runOps 16 8
      [BufOp.createOp (fun _ => Except.ok (EcmaNumber.finite ((4 : Nat) : ℚ)))
        (fun _ => 0) [EcmaValue.undef],
       BufOp.cloneOp (fun _ => 0) 0 2] ⟨[]⟩).objs,
      16 + o.length < 2 ^ 32) :=
  ⟨by decide, by decide, (by intro o ho; cases ho),
    C10_length_bound_no_overflow 16 8
      ([BufOp.createOp (fun _ => Except.ok (EcmaNumber.finite ((4 : Nat) : ℚ)))
        (fun _ => 0) [EcmaValue.undef],
       BufOp.cloneOp (fun _ => 0) 0 2]) (Heap.mk [])
      (by decide) (by decide) (by intro o ho; cases ho)⟩

end ArrayBufferSpec
